import Mathlib

/-!
Verification development for the TestReportAnalyzer frontend.

The definitions below are a shallow embedding of the JavaScript data-shaping
and UI-handler code of the repository:

* `src/frontend/src/utils/analysisUtils.js` and its newer variant shipped in
  the repository (exporting `createAnalysisEntry` together with
  `extractSummariesFromResult`, `normaliseSummaryPayload`,
  `aggregateOverallSummary`, `pickMeasuredValuesSnapshot`,
  `resolveEngineLabel`, `coerceNumber`, `normaliseStringList`,
  `normaliseFailureList`);
* `fileUtils.js` (`normaliseFilenameForComparison`);
* `src/frontend/src/api.js` (`analyzeReportsWithAI` request construction and
  `normalizeAnalyzeFilesResponse`);
* `src/frontend/src/components/ArchiveManagement.js` (`handleBulkUpload`,
  `handleAnalyzeSelected`);
* the `TestReportsBoard` component (`handleCompare`, `handleAnalyze`) and the
  upload form (`handleSubmit`);
* `ComparisonDetailView.js`.

Modelling conventions:

* JSON values delivered by the server are modelled by the inductive `JsonVal`.
  JavaScript `undefined` (an absent field) is modelled by `Option.none` from
  `getField`, distinct from an explicit JSON `null`.
* JavaScript numbers are modelled by `ℚ`. JSON cannot carry `NaN` or
  infinities, and all numeric values the embedded code manufactures are
  finite, so every number in the model is a finite rational.  `toFixed(2)`
  followed by `Number(...)` is modelled by exact rounding to two decimals
  (`round2`).
* `Number(value)` coercion is modelled by `jsNumber`; for strings only the
  plain decimal fragment of the JavaScript grammar is modelled (sign, digits,
  optional fraction, surrounding whitespace); other strings coerce to "NaN"
  (`none`), matching JavaScript on every value the claims exercise.
* React state updates become explicit fields of result records, and awaited
  network calls become outcome parameters; the sequence of issued requests is
  returned as an explicit list/trace.
-/

/-- A JSON value as consumed by the frontend.  Objects are association lists
whose keys are assumed distinct (JavaScript object values have unique keys). -/
inductive JsonVal : Type where
  | null : JsonVal
  | bool : Bool → JsonVal
  | num : ℚ → JsonVal
  | str : String → JsonVal
  | arr : List JsonVal → JsonVal
  | obj : List (String × JsonVal) → JsonVal

/-- Field lookup on an object; `none` models JavaScript `undefined`
(accessing a property that is not present, or a property of a primitive). -/
def lookupField : List (String × JsonVal) → String → Option JsonVal
  | [], _ => none
  | (k, v) :: rest, key => if k = key then some v else lookupField rest key

/-- `v.key` property access. On non-objects it yields `undefined` (`none`),
which is what JavaScript does for every property name the embedded code
reads (the code only dereferences values it has checked to be truthy). -/
def getField : JsonVal → String → Option JsonVal
  | .obj fields, key => lookupField fields key
  | _, _ => none

/-- JavaScript truthiness of a JSON value. -/
def jsTruthy : JsonVal → Bool
  | .null => false
  | .bool b => b
  | .num q => q != 0
  | .str s => s != ""
  | .arr _ => true
  | .obj _ => true

/-- Truthiness of a possibly-undefined value (`undefined` is falsy). -/
def truthyO : Option JsonVal → Bool
  | none => false
  | some v => jsTruthy v

/-- Nullish coalescing `a ?? b`: `undefined` and `null` fall through. -/
def nco (a b : Option JsonVal) : Option JsonVal :=
  match a with
  | none => b
  | some .null => b
  | some v => some v

/-- `a || d` where the right operand is a literal (always defined). -/
def jsOrD (a : Option JsonVal) (d : JsonVal) : JsonVal :=
  match a with
  | some v => if jsTruthy v then v else d
  | none => d

/-- `a || b` on possibly-undefined values. -/
def jsOrO (a b : Option JsonVal) : Option JsonVal :=
  if truthyO a then a else b

/-- `typeof v === "object"` for a truthy value: JavaScript classifies both
plain objects and arrays as `"object"`. -/
def isObjectLike : JsonVal → Bool
  | .obj _ => true
  | .arr _ => true
  | _ => false

/-- Reads field `k` of `v` when it is a JSON number, mirroring
`typeof v.k === "number"` followed by using the value. -/
def numField (v : JsonVal) (k : String) : Option ℚ :=
  match getField v k with
  | some (.num q) => some q
  | _ => none

/-- `Object.keys(v).length` for the snapshot check in
`pickMeasuredValuesSnapshot`: objects expose their keys, arrays and strings
their indices, primitives none. -/
def objectKeysCount : JsonVal → Nat
  | .obj fields => fields.length
  | .arr xs => xs.length
  | .str s => s.length
  | _ => 0

/-- `v?.length` truthiness, as in `summary.highlights?.length`: arrays and
strings have a `length` property, everything else yields `undefined`. -/
def jsLengthTruthy : Option JsonVal → Bool
  | some (.arr xs) => !xs.isEmpty
  | some (.str s) => s != ""
  | _ => false

/-- Decimal rendering of a rational for `String(number)`.  Integers render
exactly as in JavaScript; non-integer rationals (which never reach string
conversion in the embedded code paths) use the `num/den` form. -/
def ratToJsString (q : ℚ) : String :=
  if q.den = 1 then toString q.num else toString q.num ++ "/" ++ toString q.den

mutual
/-- `String(v)` conversion, as used by `normaliseStringList` and
`resolveEngineLabel`; array elements that are `null` render empty inside a
join, objects render as in JavaScript. -/
def jsToString : JsonVal → String
  | .null => "null"
  | .bool true => "true"
  | .bool false => "false"
  | .num q => ratToJsString q
  | .str s => s
  | .arr xs => String.intercalate "," (jsToStringElems xs)
  | .obj _ => "[object Object]"

/-- Elements of an array under `String(...)`: `null` elements render empty. -/
def jsToStringElems : List JsonVal → List String
  | [] => []
  | .null :: rest => "" :: jsToStringElems rest
  | v :: rest => jsToString v :: jsToStringElems rest
end

/-- Parses a list of decimal digits into a natural number (most significant
first), `none` when empty or a non-digit appears. -/
def parseDigits : List Char → Option Nat
  | [] => none
  | cs => cs.foldl (fun acc c =>
      match acc with
      | none => none
      | some n => if c.isDigit then some (n * 10 + (c.toNat - 48)) else none)
      (some 0)

/-- The decimal fragment of JavaScript `Number(string)`: surrounding
whitespace is ignored, the empty string is `0`, otherwise an optional sign,
digits and an optional fractional part; anything else is NaN (`none`). -/
def strToNum (s : String) : Option ℚ :=
  let t := s.trim
  if t = "" then some 0
  else
    let (sign, body) : ℚ × List Char :=
      match t.data with
      | '-' :: rest => (-1, rest)
      | '+' :: rest => (1, rest)
      | cs => (1, cs)
    match body.splitOn '.' with
    | [intPart] => (parseDigits intPart).map fun n => sign * n
    | [intPart, fracPart] =>
        match intPart, fracPart with
        | [], [] => none
        | [], f => (parseDigits f).map fun n => sign * n / (10 ^ f.length)
        | i, [] => (parseDigits i).map fun n => sign * n
        | i, f =>
            match parseDigits i, parseDigits f with
            | some ni, some nf => some (sign * (ni + (nf : ℚ) / (10 ^ f.length)))
            | _, _ => none
    | _ => none

/-- `Number(v)` on a JSON value; `none` models NaN. -/
def jsNumber : JsonVal → Option ℚ
  | .null => some 0
  | .bool b => some (if b then 1 else 0)
  | .num q => some q
  | .str s => strToNum s
  | .arr xs => strToNum (jsToString (.arr xs))
  | .obj _ => none

/-- `coerceNumber(value, fallback)` from analysisUtils: `Number(value)` when
finite, the fallback otherwise (`undefined` coerces to NaN). -/
def coerceNumber (value : Option JsonVal) (fallback : ℚ) : ℚ :=
  match value with
  | none => fallback
  | some v =>
    match jsNumber v with
    | some q => q
    | none => fallback

/-- `Number(x.toFixed(2))`: rounding to two decimal places. -/
def round2 (q : ℚ) : ℚ :=
  ((round (q * 100) : ℤ) : ℚ) / 100

/-! ### `normaliseFilenameForComparison` (fileUtils.js)

The JavaScript pipeline is
`filename.normalize("NFKD").replace(/[̀-ͯ]/g, "").replace(/[^0-9a-zA-Z._-]/g, "_").replace(/_+/g, "_").replace(/^_+/, "").replace(/^\.+/, "").toLowerCase()`.

`String.prototype.normalize("NFKD")` is the identity on the ASCII repertoire;
the model takes it as the identity map (`nfkdNormalize`).  Compatibility
decompositions of non-ASCII characters are not modelled: every non-ASCII
character is sent to `_` by the subsequent replace in the model, as almost
all are in JavaScript.  `toLowerCase` is modelled by `Char.toLower`
(the ASCII case mapping), matching JavaScript on the ASCII repertoire. -/

/-- `normalize("NFKD")`, modelled as the identity (exact on ASCII). -/
def nfkdNormalize (l : List Char) : List Char := l

/-- A combining diacritical mark, the class `[̀-ͯ]` (U+0300 – U+036F). -/
def isCombiningMark (c : Char) : Bool :=
  decide (768 ≤ c.toNat ∧ c.toNat ≤ 879)

/-- A character of the class `[0-9a-zA-Z._-]` kept by the sanitising
replace, by code point: digits 48–57, uppercase 65–90, lowercase 97–122,
`.` 46, `_` 95, `-` 45. -/
def allowedChar (c : Char) : Bool :=
  decide ((48 ≤ c.toNat ∧ c.toNat ≤ 57) ∨ (65 ≤ c.toNat ∧ c.toNat ≤ 90) ∨
    (97 ≤ c.toNat ∧ c.toNat ≤ 122) ∨ c.toNat = 46 ∨ c.toNat = 95 ∨ c.toNat = 45)

/-- `replace(/_+/g, "_")`: collapses every run of underscores to one
(a leading underscore is dropped when the already-collapsed tail begins
with one). -/
def collapseUnderscores : List Char → List Char
  | [] => []
  | a :: l =>
    if a = '_' ∧ (collapseUnderscores l).head? = some '_' then
      collapseUnderscores l
    else a :: collapseUnderscores l

/-- The character-list pipeline of `normaliseFilenameForComparison`. -/
def normChars (l : List Char) : List Char :=
  ((((((nfkdNormalize l).filter (fun c => !isCombiningMark c)).map
      (fun c => if allowedChar c then c else '_')
    |> collapseUnderscores).dropWhile (· = '_')).dropWhile (· = '.')).map
      Char.toLower)

/-- `normaliseFilenameForComparison` from fileUtils.js (the `!filename`
guard returns `""` for the empty string). -/
def normaliseFilenameForComparison (s : String) : String :=
  if s = "" then "" else String.mk (normChars s.data)

/-- `s.toLowerCase()` on the ASCII repertoire. -/
def lowerStr (s : String) : String :=
  String.mk (s.data.map Char.toLower)

/-- A character the normaliser may emit: the class `[0-9a-z._-]`
(digits, lowercase letters, dot, underscore, hyphen). -/
def isAllowedOutputChar (c : Char) : Bool :=
  decide ((48 ≤ c.toNat ∧ c.toNat ≤ 57) ∨ (97 ≤ c.toNat ∧ c.toNat ≤ 122) ∨
    c.toNat = 46 ∨ c.toNat = 95 ∨ c.toNat = 45)

/-- No two adjacent underscores (the post-collapse invariant). -/
def noDoubleUnderscore : List Char → Bool
  | [] => true
  | [_] => true
  | a :: b :: rest =>
      !(a = '_' && b = '_') && noDoubleUnderscore (b :: rest)

/-! ### analysisUtils.js -/

/-- `resolveEngineLabel(engineKey)`: falsy keys default to `"ChatGPT"`,
otherwise the lowercased string form is searched for `claude` / `gpt`.
`includes` is modelled through `splitOn` (a needle occurs iff splitting on it
yields more than one part). -/
def resolveEngineLabel (engineKey : Option JsonVal) : JsonVal :=
  if !truthyO engineKey then .str "ChatGPT"
  else
    let n := lowerStr (jsToString (engineKey.getD .null))
    if (n.splitOn "claude").length != 1 then .str "Claude"
    else if (n.splitOn "gpt").length != 1 then .str "ChatGPT"
    else engineKey.getD .null

/-- `normaliseStringList(value)`: arrays map each element through
`String(item ?? "").trim()` and drop empties; strings become a singleton when
their trim is non-empty; everything else is `[]`. -/
def normaliseStringList (value : Option JsonVal) : List String :=
  match value with
  | some (.arr xs) =>
      (xs.map (fun item =>
        (jsToString (match item with | .null => .str "" | v => v)).trim)).filter
        (fun s => s ≠ "")
  | some (.str s) => if s.trim = "" then [] else [s.trim]
  | _ => []

/-- One entry produced by `normaliseFailureList`. -/
structure FailureEntry where
  test_name : JsonVal
  failure_reason : JsonVal
  suggested_fix : JsonVal

/-- `normaliseFailureList(value)`: non-arrays give `[]`; each array element
contributes its three fields with the `||` defaults of the source. -/
def normaliseFailureList (value : Option JsonVal) : List FailureEntry :=
  match value with
  | some (.arr xs) =>
      xs.map fun f =>
        { test_name := jsOrD (getField f "test_name") (.str "Bilinmeyen Test")
          failure_reason := jsOrD (getField f "failure_reason") (.str "")
          suggested_fix := jsOrD (getField f "suggested_fix") (.str "") }
  | _ => []

/-- The `overall_summary` object built by `normaliseSummaryPayload`:
`{...measurementOverall, total_tests, passed, failed, success_rate}`.
`base` is the spread `measurementOverall`; the four named fields override
any fields of the same name in `base`. -/
structure OverallSummaryVal where
  base : JsonVal
  total_tests : ℚ
  passed : ℚ
  failed : ℚ
  success_rate : ℚ

/-- The record returned by `normaliseSummaryPayload`
(`{...summary, highlights, failures, localized_summaries,
structured_sections, measured_values, overall_summary}`); `raw` is the
spread original summary. -/
structure NormSummary where
  raw : JsonVal
  highlights : JsonVal
  failures : List FailureEntry
  localized_summaries : JsonVal
  structured_sections : JsonVal
  measured_values : JsonVal
  overall_summary : OverallSummaryVal

/-- `measurementAnalysis = summary.measurement_analysis || {}`. -/
def summaryMeasurementAnalysis (summary : JsonVal) : JsonVal :=
  jsOrD (getField summary "measurement_analysis") (.obj [])

/-- `measurementOverall = measurementAnalysis.overall_summary ||
summary.overall_summary || {}`. -/
def summaryMeasurementOverall (summary : JsonVal) : JsonVal :=
  jsOrD (getField (summaryMeasurementAnalysis summary) "overall_summary")
    (jsOrD (getField summary "overall_summary") (.obj []))

/-- `measuredValues = measurementAnalysis.measured_values ||
summary.measured_values || {}`. -/
def summaryMeasuredValues (summary : JsonVal) : JsonVal :=
  jsOrD (getField (summaryMeasurementAnalysis summary) "measured_values")
    (jsOrD (getField summary "measured_values") (.obj []))

/-- `totalTests = coerceNumber(summary.total_tests ??
measurementOverall.total_tests ?? 0, 0)`. -/
def summaryTotalTests (summary : JsonVal) : ℚ :=
  coerceNumber
    (nco (getField summary "total_tests")
      (nco (getField (summaryMeasurementOverall summary) "total_tests")
        (some (.num 0)))) 0

/-- `passedTests = coerceNumber(summary.passed_tests ??
measurementOverall.passed ?? measurementOverall.passed_tests, 0)`. -/
def summaryPassedTests (summary : JsonVal) : ℚ :=
  coerceNumber
    (nco (getField summary "passed_tests")
      (nco (getField (summaryMeasurementOverall summary) "passed")
        (getField (summaryMeasurementOverall summary) "passed_tests"))) 0

/-- `derivedFailed = Math.max(totalTests - passedTests, 0)`. -/
def summaryDerivedFailed (summary : JsonVal) : ℚ :=
  max (summaryTotalTests summary - summaryPassedTests summary) 0

/-- `failedTests = coerceNumber(summary.failed_tests ??
measurementOverall.failed ?? measurementOverall.failed_tests,
derivedFailed)`. -/
def summaryFailedTests (summary : JsonVal) : ℚ :=
  coerceNumber
    (nco (getField summary "failed_tests")
      (nco (getField (summaryMeasurementOverall summary) "failed")
        (getField (summaryMeasurementOverall summary) "failed_tests")))
    (summaryDerivedFailed summary)

/-- The `successRate` conditional chain of `normaliseSummaryPayload`: an
explicit numeric `success_rate` on the summary, else on the measurement
overall, else `passed/total*100` rounded to two decimals when the total is
truthy, else `0`. -/
def summarySuccessRate (summary : JsonVal) : ℚ :=
  match numField summary "success_rate" with
  | some q => q
  | none =>
    match numField (summaryMeasurementOverall summary) "success_rate" with
    | some q => q
    | none =>
      if summaryTotalTests summary ≠ 0 then
        round2 (summaryPassedTests summary / summaryTotalTests summary * 100)
      else 0

/-- `highlights = summary.highlights?.length ? summary.highlights :
normaliseStringList(measurementOverall.highlights)`. -/
def summaryHighlights (summary : JsonVal) : JsonVal :=
  if jsLengthTruthy (getField summary "highlights") then
    (getField summary "highlights").getD .null
  else
    .arr ((normaliseStringList
      (getField (summaryMeasurementOverall summary) "highlights")).map .str)

/-- `normaliseSummaryPayload(summary)`: `null` for falsy or non-object
input, otherwise the normalised record. -/
def normaliseSummaryPayload (summary : JsonVal) : Option NormSummary :=
  if !jsTruthy summary || !isObjectLike summary then none
  else some
    { raw := summary
      highlights := summaryHighlights summary
      failures := normaliseFailureList (getField summary "failures")
      localized_summaries := jsOrD (getField summary "localized_summaries") (.obj [])
      structured_sections := jsOrD (getField summary "structured_sections") (.obj [])
      measured_values := summaryMeasuredValues summary
      overall_summary :=
        { base := summaryMeasurementOverall summary
          total_tests := summaryTotalTests summary
          passed := summaryPassedTests summary
          failed := summaryFailedTests summary
          success_rate := summarySuccessRate summary } }

/-- The aggregate `{...totals, success_rate}` of `aggregateOverallSummary`. -/
structure AggSummary where
  total_tests : ℚ
  passed : ℚ
  failed : ℚ
  success_rate : ℚ
deriving DecidableEq

/-- `aggregateOverallSummary(summaries)`: `{}` (here `none`) on the empty
list, otherwise the field-wise sums with the division-guarded success rate.
On normalised summaries — the only values it is applied to — the source's
`coerceNumber(stats.total_tests ?? item.total_tests, 0)` reads exactly the
numeric `overall_summary` fields, so the sums are taken directly. -/
def aggregateOverallSummary (summaries : List NormSummary) : Option AggSummary :=
  match summaries with
  | [] => none
  | _ =>
    let t := (summaries.map (fun s => s.overall_summary.total_tests)).sum
    let p := (summaries.map (fun s => s.overall_summary.passed)).sum
    let f := (summaries.map (fun s => s.overall_summary.failed)).sum
    some
      { total_tests := t
        passed := p
        failed := f
        success_rate := if t ≠ 0 then round2 (p / t * 100) else 0 }

/-- `pickMeasuredValuesSnapshot(summaries)`: the first `measured_values`
with at least one key, else `{}`. -/
def pickMeasuredValuesSnapshot : List NormSummary → JsonVal
  | [] => .obj []
  | s :: rest =>
      if objectKeysCount s.measured_values > 0 then s.measured_values
      else pickMeasuredValuesSnapshot rest

/-- `extractSummariesFromResult(result)`: the `summaries` array, else an
array-valued `summary`, else a singleton of an object-valued `summary`,
else `[]`. -/
def extractSummariesFromResult (result : JsonVal) : List JsonVal :=
  if !jsTruthy result then []
  else
    match getField result "summaries" with
    | some (.arr xs) => xs
    | _ =>
      match getField result "summary" with
      | some (.arr xs) => xs
      | some (.obj fs) => [.obj fs]
      | _ => []

/-- The `context` argument of `createAnalysisEntry`; absent properties are
`none` (the default `{}` has all three absent). -/
structure Context where
  engineKey : Option JsonVal
  source : Option JsonVal
  message : Option JsonVal

/-- The record returned by `createAnalysisEntry`.  The impure `id:
Date.now()` and `timestamp: new Date().toISOString()` fields are not
modelled; fields that only some branches set are `Option`s. -/
structure AnalysisEntry where
  engine : JsonVal
  engine_key : Option JsonVal
  source : Option JsonVal
  message : Option JsonVal
  error : Option JsonVal
  summary : Option String
  files_analyzed : Option Nat
  summaries : List NormSummary
  overall_summary : Option AggSummary
  measured_values : Option JsonVal
  details : JsonVal

/-- `createAnalysisEntry(result, context)` (the variant exporting the
summaries pipeline): `null` for falsy input; an error entry when
`result.error` is truthy; a "no summaries" entry when nothing survives
normalisation; otherwise the aggregated entry. -/
def createAnalysisEntry (result : JsonVal) (context : Context) :
    Option AnalysisEntry :=
  if !jsTruthy result then none
  else if truthyO (getField result "error") then
    let engineKey :=
      jsOrD context.engineKey
        (jsOrD (getField result "engine_key")
          (jsOrD (getField result "engine") (.str "unknown")))
    some
      { engine := resolveEngineLabel (some engineKey)
        engine_key := some engineKey
        source := none
        message := none
        error := getField result "error"
        summary := some "Analiz başarısız oldu. Lütfen tekrar deneyin."
        files_analyzed := none
        summaries := []
        overall_summary := none
        measured_values := none
        details := jsOrD (getField result "raw_response") (.str "Detay bulunamadı") }
  else
    match (extractSummariesFromResult result).filterMap normaliseSummaryPayload with
    | [] =>
      some
        { engine := resolveEngineLabel
            (jsOrO context.engineKey
              (jsOrO (getField result "engine_key") (getField result "engine")))
          engine_key := none
          source := none
          message := some (jsOrD (getField result "message")
            (jsOrD context.message (.str "")))
          error := none
          summary := some "Analiz tamamlandı ancak özet oluşturulamadı"
          files_analyzed := none
          summaries := []
          overall_summary := none
          measured_values := none
          details := result }
    | extracted =>
      let engineKey :=
        jsOrD context.engineKey
          (jsOrD (getField result "engine_key")
            (jsOrD (getField result "engine") (.str "chatgpt")))
      some
        { engine := resolveEngineLabel (some engineKey)
          engine_key := some engineKey
          source := some (jsOrD context.source (.str ""))
          message := some (jsOrD (getField result "message")
            (jsOrD context.message (.str "")))
          error := none
          summary := none
          files_analyzed := some extracted.length
          summaries := extracted
          overall_summary := aggregateOverallSummary extracted
          measured_values := some (pickMeasuredValuesSnapshot extracted)
          details := result }

/-! ### api.js: `analyzeReportsWithAI` and `normalizeAnalyzeFilesResponse` -/

/-- One value appended to the multipart `FormData`. -/
inductive FormValue : Type where
  | fileEntry : String → FormValue
  | textEntry : String → FormValue
deriving DecidableEq

/-- One `formData.append(field, value)` call. -/
structure FormPart where
  field : String
  value : FormValue
deriving DecidableEq

/-- `const fileName = file?.name || ` `` `report-${index + 1}.pdf` `` — the
file argument is modelled by its optional `name`. -/
def analyzeFilesFileName (index : Nat) (name : Option String) : String :=
  match name with
  | some n => if n = "" then "report-" ++ toString (index + 1) ++ ".pdf" else n
  | none => "report-" ++ toString (index + 1) ++ ".pdf"

/-- The `FormData` built by `analyzeReportsWithAI`: one
`append("files", file, fileName)` per file in order, then
`append("engine", engine)`. -/
def analyzeFilesFormData (files : List (Option String)) (engine : String) :
    List FormPart :=
  (files.enum.map fun p =>
    { field := "files", value := .fileEntry (analyzeFilesFileName p.1 p.2) }) ++
  [{ field := "engine", value := .textEntry engine }]

/-- The value returned by `normalizeAnalyzeFilesResponse`: the spread
payload (`base`) plus the synthesised `summaries` array. -/
structure AnalyzeFilesResponse where
  base : JsonVal
  summaries : List JsonVal

/-- `normalizeAnalyzeFilesResponse(payload)`: falsy or non-object payloads
give the empty default; otherwise `summaries` is the array field when it is
an array, else a singleton of a truthy `summary`, else `[]`. -/
def normalizeAnalyzeFilesResponse (payload : JsonVal) : AnalyzeFilesResponse :=
  if !jsTruthy payload || !isObjectLike payload then
    { base := .obj [("engine", .str ""), ("engine_key", .str ""), ("message", .str "")]
      summaries := [] }
  else
    { base := payload
      summaries :=
        match getField payload "summaries" with
        | some (.arr xs) => xs
        | _ =>
          match getField payload "summary" with
          | some v => if jsTruthy v then [v] else []
          | none => [] }

/-- The `summaries` array the (amended) spec prescribes for the normalised
response: the server's `summaries` when that is an array, else a singleton
wrapping a truthy singular `summary`, else empty.  Written from the spec
sentence, to be compared with `normalizeAnalyzeFilesResponse`. -/
def specNormalizedSummaries (payload : JsonVal) : List JsonVal :=
  if !jsTruthy payload || !isObjectLike payload then []
  else
    match getField payload "summaries" with
    | some (.arr xs) => xs
    | _ =>
      match getField payload "summary" with
      | some v => if jsTruthy v then [v] else []
      | none => []

/-- `analyzeReportsWithAI(files, engine)` as a pure pair: the multipart
request it posts and the normalisation it applies to the server's JSON
response (the network itself is the `serverResponse` parameter). -/
def analyzeReportsWithAI (files : List (Option String)) (engine : String)
    (serverResponse : JsonVal) : List FormPart × AnalyzeFilesResponse :=
  (analyzeFilesFormData files engine, normalizeAnalyzeFilesResponse serverResponse)

/-! ### ArchiveManagement.js: `handleBulkUpload` -/

/-- Result of one awaited `uploadReport` call: success, or a rejection whose
derived message is `error?.response?.data?.error || error?.message ||` the
generic fallback (the value of that `||` chain is carried directly). -/
inductive UploadOutcome : Type where
  | ok : UploadOutcome
  | err : String → UploadOutcome
deriving DecidableEq

/-- Does the outcome succeed? -/
def UploadOutcome.isOk : UploadOutcome → Bool
  | .ok => true
  | .err _ => false

/-- Observable step of the bulk-upload loop: an `uploadReport` call starting,
its awaited completion, and the `finally` progress update. -/
inductive BulkEvent : Type where
  | start : String → BulkEvent
  | finish : String → Bool → BulkEvent
  | progress : Nat → Nat → BulkEvent
deriving DecidableEq

/-- The file of a `start` event (used to read off, from a trace, which
uploads were initiated and in which order). -/
def startFile : BulkEvent → Option String
  | .start f => some f
  | _ => none

/-- A `setMultiUploadStatus` payload `{type, message}`. -/
structure StatusMsg where
  type : String
  message : String
deriving DecidableEq

/-- The `for` loop of `handleBulkUpload`: files are awaited one at a time in
order, failures are caught per file, `firstError` keeps the first non-empty
failure message, and the `finally` block reports progress `index + 1`.
Returns the event trace, the success and failure counts and the final
`firstErrorMessage`. -/
def bulkLoop (outcome : Nat → UploadOutcome) (total : Nat) :
    List String → Nat → String → List BulkEvent × Nat × Nat × String
  | [], _, firstErr => ([], 0, 0, firstErr)
  | f :: rest, i, firstErr =>
    match outcome i with
    | .ok =>
      let r := bulkLoop outcome total rest (i + 1) firstErr
      (.start f :: .finish f true :: .progress (i + 1) total :: r.1,
        r.2.1 + 1, r.2.2.1, r.2.2.2)
    | .err m =>
      let r := bulkLoop outcome total rest (i + 1)
        (if firstErr = "" then m else firstErr)
      (.start f :: .finish f false :: .progress (i + 1) total :: r.1,
        r.2.1, r.2.2.1 + 1, r.2.2.2)

/-- The strictly sequential reference trace: for each file in list order, a
start, its awaited finish, then the progress update — no interleaving and no
file skipped. -/
def bulkTraceSpec (outcome : Nat → UploadOutcome) (total : Nat) :
    List String → Nat → List BulkEvent
  | [], _ => []
  | f :: rest, i =>
      .start f :: .finish f (outcome i).isOk :: .progress (i + 1) total ::
        bulkTraceSpec outcome total rest (i + 1)

/-- The summary banner chosen after the loop: warning with both counts on a
partial failure, error when nothing succeeded, success otherwise. -/
def bulkSummaryStatus (success failure : Nat) (firstErr : String) : StatusMsg :=
  if failure > 0 ∧ success > 0 then
    { type := "warning"
      message := toString success ++ " rapor yüklendi, " ++ toString failure ++
        " rapor yüklenemedi. İlk hata: " ++ firstErr }
  else if failure > 0 then
    { type := "error", message := "Raporlar yüklenemedi. İlk hata: " ++ firstErr }
  else
    { type := "success", message := toString success ++ " rapor başarıyla yüklendi." }

/-- The observable result of `handleBulkUpload`. -/
structure BulkUploadRun where
  events : List BulkEvent
  successCount : Nat
  failureCount : Nat
  firstError : String
  /-- The count-summary banner set right after the loop (`none` when the
  handler returned early on an empty selection). -/
  summaryStatus : Option StatusMsg
  /-- The banner left after the optional `onRefresh` step, which replaces the
  summary when a refresh was attempted and threw. -/
  finalStatus : StatusMsg
deriving DecidableEq

/-- `handleBulkUpload` of ArchiveManagement.js: early error on an empty
selection, otherwise the sequential loop, the count-summary banner, and the
refresh step (`refreshOutcome`: `none` when no `onRefresh` callback is
installed, otherwise whether the refresh resolved). -/
def handleBulkUpload (selectedFiles : List String)
    (outcome : Nat → UploadOutcome) (refreshOutcome : Option Bool) :
    BulkUploadRun :=
  match selectedFiles with
  | [] =>
    { events := [], successCount := 0, failureCount := 0, firstError := ""
      summaryStatus := none
      finalStatus := { type := "error", message := "Lütfen en az bir PDF dosyası seçin." } }
  | files =>
    let r := bulkLoop outcome files.length files 0 ""
    let summary := bulkSummaryStatus r.2.1 r.2.2.1 r.2.2.2
    { events := r.1, successCount := r.2.1, failureCount := r.2.2.1
      firstError := r.2.2.2
      summaryStatus := some summary
      finalStatus :=
        if r.2.1 > 0 ∧ refreshOutcome = some false then
          { type := "warning"
            message := "Rapor listesi güncellenemedi, lütfen sayfayı yenileyin." }
        else summary }

/-! ### Action handlers and their processing-flag guards -/

/-- A network request issued by a handler. -/
inductive NetCall : Type where
  | upload : String → String → NetCall
  | analyzeFiles : List String → String → NetCall
  | analyzeArchived : List Nat → String → NetCall
  | compare : List Nat → NetCall
  | download : Nat → NetCall
deriving DecidableEq

/-- Observable result of the upload form's `handleSubmit`: the requests it
issued and the banners it set. -/
structure SubmitRun where
  calls : List NetCall
  errorMsg : Option String
deriving DecidableEq

/-- `handleSubmit` of the upload form: validation, the `isBusy` guard, the
duplicate-filename guard, then the awaited upload followed — only on upload
success — by the analysis call (each failure is caught and surfaced as an
error banner). -/
def handleSubmit (selectedFile : Option String) (isBusy : Bool)
    (existingFilenames : List String) (analysisEngine : String)
    (uploadOk : Bool) : SubmitRun :=
  match selectedFile with
  | none => { calls := [], errorMsg := some "Lütfen önce bir PDF dosyası seçin" }
  | some file =>
    if isBusy then { calls := [], errorMsg := none }
    else if normaliseFilenameForComparison file ≠ "" ∧
        normaliseFilenameForComparison file ∈ existingFilenames then
      { calls := [], errorMsg := some "Bu rapor daha önce arşivlendi." }
    else if uploadOk then
      { calls := [.upload file analysisEngine, .analyzeFiles [file] analysisEngine]
        errorMsg := none }
    else
      { calls := [.upload file analysisEngine], errorMsg := none }

/-- Observable result of a board/archive action handler. -/
structure ActionRun where
  calls : List NetCall
  /-- The `disabled` attribute of the button that triggers the handler. -/
  buttonDisabled : Bool
deriving DecidableEq

/-- `handleAnalyze` of the `TestReportsBoard` component: the `isProcessing`
guard, the selection-size checks, then one download per selected report and
the analysis request (reports are looked up by id; the analyze call is only
reached when every id resolves). -/
def handleAnalyze (isProcessing : Bool) (selectedIds : List Nat)
    (reports : List (Nat × String)) (analysisEngine : String) : ActionRun :=
  if isProcessing then { calls := [], buttonDisabled := isProcessing }
  else if selectedIds.length = 0 then
    { calls := [], buttonDisabled := isProcessing }
  else if selectedIds.length > 2 then
    { calls := [], buttonDisabled := isProcessing }
  else
    let found := selectedIds.filter fun id => (reports.lookup id).isSome
    { calls := (found.map .download) ++
        (if found = selectedIds then
          [.analyzeFiles (found.filterMap fun id => reports.lookup id) analysisEngine]
        else [])
      buttonDisabled := isProcessing }

/-- `handleCompare` of the `TestReportsBoard` component: only the
selection-size checks precede the network call — the handler reads neither
`isProcessing` nor `isComparing`; those flags only feed the button's
`disabled` attribute. -/
def handleCompare (isProcessing isComparing : Bool)
    (selectedIds : List Nat) : ActionRun :=
  if selectedIds.length < 2 then
    { calls := [], buttonDisabled := isProcessing || isComparing }
  else if selectedIds.length > 2 then
    { calls := [], buttonDisabled := isProcessing || isComparing }
  else
    { calls := [.compare (selectedIds.take 2)]
      buttonDisabled := isProcessing || isComparing }

/-- `handleAnalyzeSelected` of ArchiveManagement.js: the
`isArchiveProcessing` guard, the selection-size checks, then the
`analyzeArchivedReports` request. -/
def handleAnalyzeSelected (isArchiveProcessing : Bool)
    (selectedArchiveIds : List Nat) (analysisEngine : String) : ActionRun :=
  if isArchiveProcessing then
    { calls := [], buttonDisabled := isArchiveProcessing }
  else if selectedArchiveIds.length = 0 then
    { calls := [], buttonDisabled := isArchiveProcessing }
  else if selectedArchiveIds.length > 2 then
    { calls := [], buttonDisabled := isArchiveProcessing }
  else
    { calls := [.analyzeArchived selectedArchiveIds analysisEngine]
      buttonDisabled := isArchiveProcessing }

/-! ### ComparisonDetailView.js -/

/-- One `renderFieldComparison` table row. -/
structure FieldRow where
  label : String
  first : Option JsonVal
  second : Option JsonVal
  identical : Bool

/-- `renderFieldComparison(label, fieldData)`: `null` for falsy data, else a
row with the destructured fields. -/
def renderFieldComparison (label : String) (fieldData : Option JsonVal) :
    Option FieldRow :=
  match fieldData with
  | some v =>
    if jsTruthy v then
      some { label := label, first := getField v "first"
             second := getField v "second"
             identical := truthyO (getField v "identical") }
    else none
  | none => none

/-- `Object.entries(v)` (insertion order for objects, indices for arrays). -/
def entriesOf : JsonVal → List (String × JsonVal)
  | .obj fields => fields
  | .arr xs => xs.enum.map fun p => (toString p.1, p.2)
  | _ => []

/-- The label map of the `simple_fields` table. -/
def simpleFieldLabel (field : String) : String :=
  if field = "auftraggeber" then "Müşteri"
  else if field = "anwesende" then "Katılımcılar"
  else if field = "versuchsbedingungen" then "Test Koşulları"
  else if field = "examiner" then "Test Sorumlusu"
  else field

/-- The label map of the `pruefling` table. -/
def prueflingLabel (field : String) : String :=
  if field = "bezeichnung" then "Tanım"
  else if field = "hersteller" then "Üretici"
  else if field = "typ" then "Tip"
  else field

/-- The label map of the `pruefergebnis` table. -/
def pruefergebnisLabel (field : String) : String :=
  if field = "ergebnis" then "Sonuç"
  else if field = "freigabe" then "Onay"
  else if field = "pruefer" then "Test Uzmanı"
  else if field = "datum" then "Tarih"
  else field

/-- What `ComparisonDetailView` renders once the top guards pass: the four
stat cards, the three field tables (with the source's skipped keys), and the
`lehnen_winkel` angle section when present. -/
structure ComparisonView where
  metadata_similarity : Option JsonVal
  total_fields_compared : Option JsonVal
  different_fields : Option JsonVal
  critical_differences : Option JsonVal
  simpleRows : List FieldRow
  angleSection : Option JsonVal
  prueflingRows : List FieldRow
  pruefergebnisRows : List FieldRow

/-- `ComparisonDetailView({comparisonData})`: `null` (`none`) for falsy
data, for a falsy `page_2_comparison`, and for a truthy
`page_2_comparison.error`; otherwise the rendered view. -/
def ComparisonDetailView (comparisonData : JsonVal) : Option ComparisonView :=
  if !jsTruthy comparisonData then none
  else
    let p2o := getField comparisonData "page_2_comparison"
    if !truthyO p2o then none
    else
      let p2 := p2o.getD .null
      if truthyO (getField p2 "error") then none
      else some
        { metadata_similarity := getField p2 "metadata_similarity"
          total_fields_compared := getField p2 "total_fields_compared"
          different_fields := getField p2 "different_fields"
          critical_differences := getField p2 "critical_differences"
          simpleRows :=
            if truthyO (getField p2 "simple_fields") then
              (entriesOf ((getField p2 "simple_fields").getD .null)).filterMap
                fun p => renderFieldComparison (simpleFieldLabel p.1) (some p.2)
            else []
          angleSection :=
            if truthyO (getField p2 "lehnen_winkel") then
              getField p2 "lehnen_winkel"
            else none
          prueflingRows :=
            if truthyO (getField p2 "pruefling") then
              (entriesOf ((getField p2 "pruefling").getD .null)).filterMap
                fun p =>
                  if p.1 = "hinten_montiert" ∨ p.1 = "vorne_montiert" then none
                  else renderFieldComparison (prueflingLabel p.1) (some p.2)
            else []
          pruefergebnisRows :=
            if truthyO (getField p2 "pruefergebnis") then
              (entriesOf ((getField p2 "pruefergebnis").getD .null)).filterMap
                fun p =>
                  if p.1 = "dummypruefung" then none
                  else renderFieldComparison (pruefergebnisLabel p.1) (some p.2)
            else []
          }

/-! ### Concrete inputs used by counterexamples and witnesses -/

/-- The default `context = {}` of `createAnalysisEntry`. -/
def emptyContext : Context := { engineKey := none, source := none, message := none }

/-- The spec example input `{summary: {total_tests: 10, passed: 8}}`. -/
def specExampleInput : JsonVal :=
  .obj [("summary", .obj [("total_tests", .num 10), ("passed", .num 8)])]

/-- The spec example with the key the code actually reads
(`passed_tests` instead of `passed`). -/
def specExampleInputPassedTests : JsonVal :=
  .obj [("summary", .obj [("total_tests", .num 10), ("passed_tests", .num 8)])]

/-- A well-formed analysis response with one summary, used as a witness
input. -/
def sampleAnalysisResult : JsonVal :=
  .obj [("summaries", .arr [.obj [("total_tests", .num 4), ("passed_tests", .num 1)]])]

/-- A summary with a zero test total and an explicit `success_rate`. -/
def zeroTotalExplicitRateSummary : JsonVal :=
  .obj [("total_tests", .num 0), ("success_rate", .num 50)]

/-- A summary with a zero test total and no explicit `success_rate`. -/
def zeroTotalSummary : JsonVal :=
  .obj [("total_tests", .num 0)]

/-- A comparison payload whose `page_2_comparison` carries an `error` field
holding the empty string (present but falsy). -/
def falsyErrorComparison : JsonVal :=
  .obj [("page_2_comparison",
    .obj [("error", .str ""), ("metadata_similarity", .num 90)])]

/-- Two files whose first upload succeeds and whose second fails. -/
def witnessBulkFiles : List String := ["a.pdf", "b.pdf"]

/-- Outcomes for `witnessBulkFiles`: index 0 resolves, index 1 rejects. -/
def witnessBulkOutcome : Nat → UploadOutcome :=
  fun i => if i = 0 then .ok else .err "Sunucu hatası"

/-! ## Theorems

First, auxiliary lemmas about the ASCII case mapping and the character-list
pipeline of `normaliseFilenameForComparison`. -/

theorem char_eq_of_toNat_eq {c d : Char} (h : c.toNat = d.toNat) : c = d := by
  rw [← Char.ofNat_toNat c, ← Char.ofNat_toNat d, h]

theorem char_toNat_ofNat_valid {n : Nat} (h : n.isValidChar) :
    (Char.ofNat n).toNat = n := by
  rw [Char.ofNat, dif_pos h]
  rfl

theorem toLower_of_not_upper {c : Char} (h : ¬(65 ≤ c.toNat ∧ c.toNat ≤ 90)) :
    c.toLower = c := by
  rw [Char.toLower]
  exact if_neg h

theorem toNat_toLower_of_upper {c : Char} (h : 65 ≤ c.toNat ∧ c.toNat ≤ 90) :
    c.toLower.toNat = c.toNat + 32 := by
  rw [Char.toLower]
  rw [if_pos h]
  exact char_toNat_ofNat_valid (Or.inl (by omega))

theorem toLower_eq_iff_of_not_letter {t : Char}
    (h97 : ¬(97 ≤ t.toNat ∧ t.toNat ≤ 122))
    (h65 : ¬(65 ≤ t.toNat ∧ t.toNat ≤ 90)) (c : Char) :
    c.toLower = t ↔ c = t := by
  constructor
  · intro h
    by_cases hu : 65 ≤ c.toNat ∧ c.toNat ≤ 90
    · exfalso
      have hn := toNat_toLower_of_upper hu
      rw [h] at hn
      omega
    · rwa [toLower_of_not_upper hu] at h
  · intro h
    subst h
    exact toLower_of_not_upper h65

theorem toLower_toLower (c : Char) : c.toLower.toLower = c.toLower := by
  by_cases hu : 65 ≤ c.toNat ∧ c.toNat ≤ 90
  · have hn := toNat_toLower_of_upper hu
    apply toLower_of_not_upper
    omega
  · rw [toLower_of_not_upper hu, toLower_of_not_upper hu]

theorem allowedChar_toLower (c : Char) :
    allowedChar c.toLower = allowedChar c := by
  by_cases hu : 65 ≤ c.toNat ∧ c.toNat ≤ 90
  · have hn := toNat_toLower_of_upper hu
    simp only [allowedChar, hn, decide_eq_decide]
    omega
  · rw [toLower_of_not_upper hu]

theorem isCombiningMark_toLower (c : Char) :
    isCombiningMark c.toLower = isCombiningMark c := by
  by_cases hu : 65 ≤ c.toNat ∧ c.toNat ≤ 90
  · have hn := toNat_toLower_of_upper hu
    simp only [isCombiningMark, hn, decide_eq_decide]
    omega
  · rw [toLower_of_not_upper hu]

theorem isAllowedOutputChar_toLower_of_allowed {c : Char}
    (h : allowedChar c = true) : isAllowedOutputChar c.toLower = true := by
  by_cases hu : 65 ≤ c.toNat ∧ c.toNat ≤ 90
  · have hn := toNat_toLower_of_upper hu
    simp only [isAllowedOutputChar, hn, decide_eq_true_eq]
    omega
  · rw [toLower_of_not_upper hu]
    simp only [allowedChar, decide_eq_true_eq] at h
    simp only [isAllowedOutputChar, decide_eq_true_eq]
    omega

theorem toLower_of_isAllowedOutputChar {c : Char}
    (h : isAllowedOutputChar c = true) : c.toLower = c := by
  simp only [isAllowedOutputChar, decide_eq_true_eq] at h
  exact toLower_of_not_upper (by omega)

theorem mem_collapseUnderscores {c : Char} {l : List Char}
    (h : c ∈ collapseUnderscores l) : c ∈ l := by
  induction l with
  | nil => simp [collapseUnderscores] at h
  | cons a l ih =>
    rw [collapseUnderscores] at h
    by_cases hc : a = '_' ∧ (collapseUnderscores l).head? = some '_'
    · rw [if_pos hc] at h
      exact List.mem_cons_of_mem a (ih h)
    · rw [if_neg hc] at h
      rcases List.mem_cons.mp h with h | h
      · exact h ▸ List.mem_cons_self a l
      · exact List.mem_cons_of_mem a (ih h)

theorem noDU_collapseUnderscores (l : List Char) :
    noDoubleUnderscore (collapseUnderscores l) = true := by
  induction l with
  | nil => rfl
  | cons a l ih =>
    rw [collapseUnderscores]
    by_cases hc : a = '_' ∧ (collapseUnderscores l).head? = some '_'
    · rw [if_pos hc]
      exact ih
    · rw [if_neg hc]
      match hacc : collapseUnderscores l with
      | [] => rfl
      | b :: rest =>
        rw [hacc] at ih hc
        rw [noDoubleUnderscore]
        simp only [Bool.and_eq_true, Bool.not_eq_true', ih, and_true]
        simp only [List.head?_cons, not_and] at hc
        by_cases hab : a = '_'
        · have := hc hab
          simp only [Bool.and_eq_false_iff, decide_eq_false_iff_not]
          right
          intro hb
          exact this (by rw [hb])
        · simp only [Bool.and_eq_false_iff, decide_eq_false_iff_not]
          left
          exact hab

theorem noDU_tail {a : Char} {l : List Char}
    (h : noDoubleUnderscore (a :: l) = true) : noDoubleUnderscore l = true := by
  match l with
  | [] => rfl
  | b :: rest =>
    rw [noDoubleUnderscore, Bool.and_eq_true] at h
    exact h.2

theorem noDU_dropWhile (p : Char → Bool) {l : List Char}
    (h : noDoubleUnderscore l = true) :
    noDoubleUnderscore (l.dropWhile p) = true := by
  induction l with
  | nil => rfl
  | cons a l ih =>
    rw [List.dropWhile]
    by_cases hp : p a
    · rw [hp]
      exact ih (noDU_tail h)
    · simp only [Bool.not_eq_true] at hp
      rw [hp]
      exact h

theorem collapseUnderscores_of_noDU {l : List Char}
    (h : noDoubleUnderscore l = true) : collapseUnderscores l = l := by
  induction l with
  | nil => rfl
  | cons a l ih =>
    have hl := ih (noDU_tail h)
    rw [collapseUnderscores, hl]
    match l, h with
    | [], _ => simp
    | b :: rest, h =>
      rw [noDoubleUnderscore, Bool.and_eq_true] at h
      rw [if_neg]
      simp only [List.head?_cons, not_and]
      intro ha hb
      have hb' : b = '_' := by injection hb
      rw [ha, hb'] at h
      simp at h

theorem head?_dropWhile_false {p : Char → Bool} {l : List Char} {a : Char}
    (h : (l.dropWhile p).head? = some a) : p a = false := by
  induction l with
  | nil => simp [List.dropWhile] at h
  | cons b l ih =>
    rw [List.dropWhile] at h
    by_cases hp : p b
    · rw [hp] at h
      exact ih h
    · simp only [Bool.not_eq_true] at hp
      rw [hp] at h
      rw [List.head?_cons] at h
      have : b = a := by injection h
      rw [← this]
      exact hp

theorem mem_dropWhile {p : Char → Bool} {l : List Char} {c : Char}
    (h : c ∈ l.dropWhile p) : c ∈ l := by
  induction l with
  | nil => simp [List.dropWhile] at h
  | cons b l ih =>
    rw [List.dropWhile] at h
    by_cases hp : p b
    · rw [hp] at h
      exact List.mem_cons_of_mem b (ih h)
    · simp only [Bool.not_eq_true] at hp
      rw [hp] at h
      exact h

theorem allowedChar_replace (c : Char) :
    allowedChar (if allowedChar c then c else '_') = true := by
  by_cases h : allowedChar c
  · rwa [if_pos h]
  · rw [if_neg h]
    decide

theorem mem_normChars_isAllowedOutputChar {c : Char} {l : List Char}
    (h : c ∈ normChars l) : isAllowedOutputChar c = true := by
  rw [normChars] at h
  rcases List.mem_map.mp h with ⟨d, hd, rfl⟩
  have hd2 := mem_dropWhile (mem_dropWhile hd)
  have hd3 := mem_collapseUnderscores hd2
  rcases List.mem_map.mp hd3 with ⟨e, _, rfl⟩
  exact isAllowedOutputChar_toLower_of_allowed (allowedChar_replace e)

theorem head?_map_toLower_dropWhile_dot (m : List Char) :
    (((m.dropWhile (· = '.')).map Char.toLower)).head? ≠ some '.' := by
  rw [List.head?_map]
  intro h
  cases hh : (m.dropWhile (· = '.')).head? with
  | none => rw [hh] at h; simp at h
  | some a =>
    rw [hh] at h
    have ha : a.toLower = '.' := by simpa using h
    have hfalse := head?_dropWhile_false hh
    rw [(toLower_eq_iff_of_not_letter (by decide) (by decide) a).mp ha] at hfalse
    simp at hfalse

theorem head?_normChars_ne_dot (l : List Char) :
    (normChars l).head? ≠ some '.' := by
  rw [normChars]
  exact head?_map_toLower_dropWhile_dot _

theorem noDU_map_toLower {l : List Char} (h : noDoubleUnderscore l = true) :
    noDoubleUnderscore (l.map Char.toLower) = true := by
  induction l with
  | nil => rfl
  | cons a l ih =>
    match l with
    | [] => rfl
    | b :: rest =>
      rw [noDoubleUnderscore, Bool.and_eq_true] at h
      rw [List.map_cons, List.map_cons, noDoubleUnderscore, Bool.and_eq_true]
      refine ⟨?_, by rw [← List.map_cons]; exact ih h.2⟩
      simp only [Bool.not_eq_true', Bool.and_eq_false_iff, decide_eq_false_iff_not] at h ⊢
      rcases h.1 with h1 | h1
      · left
        intro hc
        exact h1 ((toLower_eq_iff_of_not_letter (by decide) (by decide) a).mp hc)
      · right
        intro hc
        exact h1 ((toLower_eq_iff_of_not_letter (by decide) (by decide) b).mp hc)

theorem noDU_normChars (l : List Char) :
    noDoubleUnderscore (normChars l) = true := by
  rw [normChars]
  exact noDU_map_toLower (noDU_dropWhile _ (noDU_dropWhile _
    (noDU_collapseUnderscores _)))

theorem dropWhile_eq_self_of_head (p : Char → Bool) {l : List Char}
    (h : ∀ a, l.head? = some a → p a = false) : l.dropWhile p = l := by
  match l with
  | [] => rfl
  | a :: t =>
    rw [List.dropWhile, h a rfl]

theorem normChars_fixpoint {l : List Char}
    (h1 : ∀ c ∈ l, isAllowedOutputChar c = true)
    (h2 : noDoubleUnderscore l = true)
    (h3 : l.head? ≠ some '.')
    (h4 : l.head? ≠ some '_') : normChars l = l := by
  rw [normChars, nfkdNormalize]
  rw [List.filter_eq_self.mpr (fun c hc => by
    have := h1 c hc
    simp only [isAllowedOutputChar, decide_eq_true_eq] at this
    simp only [isCombiningMark, Bool.not_eq_true', decide_eq_false_iff_not]
    omega)]
  rw [show (l.map fun c => if allowedChar c then c else '_') = l.map id from
    List.map_congr_left (fun c hc => by
      have := h1 c hc
      simp only [isAllowedOutputChar, decide_eq_true_eq] at this
      rw [if_pos]
      · rfl
      · simp only [allowedChar, decide_eq_true_eq]
        omega), List.map_id]
  rw [collapseUnderscores_of_noDU h2]
  rw [dropWhile_eq_self_of_head (fun x => decide (x = '_')) (fun a ha => by
    simp only [decide_eq_false_iff_not]
    intro he
    exact h4 (by rw [ha, he]))]
  rw [dropWhile_eq_self_of_head (fun x => decide (x = '.')) (fun a ha => by
    simp only [decide_eq_false_iff_not]
    intro he
    exact h3 (by rw [ha, he]))]
  rw [show l.map Char.toLower = l.map id from
    List.map_congr_left (fun c hc => toLower_of_isAllowedOutputChar (h1 c hc)),
    List.map_id]

theorem replace_toLower_comm (c : Char) :
    (if allowedChar c.toLower then c.toLower else '_') =
      Char.toLower (if allowedChar c then c else '_') := by
  by_cases h : allowedChar c
  · rw [if_pos h, if_pos (by rw [allowedChar_toLower]; exact h)]
  · rw [if_neg h, if_neg (by rw [allowedChar_toLower]; exact h)]
    decide

theorem toLower_eq_underscore_decide :
    (fun c : Char => decide (c.toLower = '_')) = fun c : Char => decide (c = '_') := by
  funext c
  rw [decide_eq_decide]
  exact toLower_eq_iff_of_not_letter (by decide) (by decide) c

theorem toLower_eq_dot_decide :
    (fun c : Char => decide (c.toLower = '.')) = fun c : Char => decide (c = '.') := by
  funext c
  rw [decide_eq_decide]
  exact toLower_eq_iff_of_not_letter (by decide) (by decide) c

theorem head?_map_toLower_eq_underscore {m : List Char} :
    (m.map Char.toLower).head? = some '_' ↔ m.head? = some '_' := by
  rw [List.head?_map]
  cases hm : m.head? with
  | none => simp only [Option.map_none']
  | some a =>
    simp only [Option.map_some']
    constructor
    · intro h
      have ha : a.toLower = '_' := by injection h
      rw [(toLower_eq_iff_of_not_letter (by decide) (by decide) a).mp ha]
    · intro h
      have ha : a = '_' := by injection h
      rw [ha]
      rfl

theorem collapseUnderscores_map_toLower (l : List Char) :
    collapseUnderscores (l.map Char.toLower) =
      (collapseUnderscores l).map Char.toLower := by
  induction l with
  | nil => rfl
  | cons a l ih =>
    rw [List.map_cons, collapseUnderscores, ih, collapseUnderscores]
    by_cases hc : a = '_' ∧ (collapseUnderscores l).head? = some '_'
    · rw [if_pos ⟨by rw [hc.1]; rfl, head?_map_toLower_eq_underscore.mpr hc.2⟩,
        if_pos hc]
    · rw [if_neg (fun hcontra => hc
        ⟨(toLower_eq_iff_of_not_letter (by decide) (by decide) a).mp hcontra.1,
          head?_map_toLower_eq_underscore.mp hcontra.2⟩), if_neg hc, List.map_cons]

theorem combiningPred_comp_toLower :
    ((fun c => !isCombiningMark c) ∘ Char.toLower) = (fun c : Char => !isCombiningMark c) := by
  funext c
  simp [Function.comp, isCombiningMark_toLower]

theorem replaceFn_comp_toLower :
    ((fun c => if allowedChar c then c else '_') ∘ Char.toLower) =
      (Char.toLower ∘ fun c : Char => if allowedChar c then c else '_') := by
  funext c
  simp only [Function.comp]
  exact replace_toLower_comm c

theorem underscorePred_comp_toLower :
    ((fun x => decide (x = '_')) ∘ Char.toLower) = (fun x : Char => decide (x = '_')) := by
  funext c
  simp only [Function.comp]
  rw [decide_eq_decide]
  exact toLower_eq_iff_of_not_letter (by decide) (by decide) c

theorem dotPred_comp_toLower :
    ((fun x => decide (x = '.')) ∘ Char.toLower) = (fun x : Char => decide (x = '.')) := by
  funext c
  simp only [Function.comp]
  rw [decide_eq_decide]
  exact toLower_eq_iff_of_not_letter (by decide) (by decide) c

theorem normChars_map_toLower (l : List Char) :
    normChars (l.map Char.toLower) = normChars l := by
  rw [normChars, normChars, nfkdNormalize, nfkdNormalize]
  rw [List.filter_map, combiningPred_comp_toLower, List.map_map,
    replaceFn_comp_toLower, ← List.map_map, collapseUnderscores_map_toLower,
    List.dropWhile_map, underscorePred_comp_toLower, List.dropWhile_map,
    dotPred_comp_toLower, List.map_map]
  exact List.map_congr_left (fun c _ => toLower_toLower c)

theorem string_eq_empty_iff {s : String} : s = "" ↔ s.data = [] := by
  constructor
  · intro h
    rw [h]
  · intro h
    cases s with
    | mk d =>
      simp only at h
      rw [h]

/-- C10: every character of `normaliseFilenameForComparison`'s output lies
in the class `[0-9a-z._-]` (lowercase letters only, no spaces, no combining
marks), and the output never begins with a dot. -/
theorem normaliseFilename_output_invariant (s : String) :
    ((normaliseFilenameForComparison s).data.all isAllowedOutputChar) = true ∧
    (normaliseFilenameForComparison s).data.head? ≠ some '.' := by
  by_cases hs : s = ""
  · subst hs
    exact ⟨rfl, by simp [normaliseFilenameForComparison]⟩
  · rw [normaliseFilenameForComparison, if_neg hs]
    constructor
    · rw [List.all_eq_true]
      intro c hc
      exact mem_normChars_isAllowedOutputChar hc
    · exact head?_normChars_ne_dot s.data

/-- C3, counterexample: `normaliseFilenameForComparison` is not idempotent.
On `"._a"` the leading-dot strip exposes an underscore: the first pass gives
`"_a"`, the second strips the underscore and gives `"a"`. -/
theorem normaliseFilename_not_idempotent :
    normaliseFilenameForComparison (normaliseFilenameForComparison "._a") ≠
      normaliseFilenameForComparison "._a" ∧
    normaliseFilenameForComparison "._a" = "_a" ∧
    normaliseFilenameForComparison "_a" = "a" := by
  refine ⟨?_, by decide, by decide⟩
  decide

/-- C3, amended: `normaliseFilenameForComparison` is idempotent on every
input whose normalised form does not begin with an underscore (the only
escape: stripping leading dots can expose a leading underscore that a second
pass would strip). -/
theorem normaliseFilename_idempotent_unless_leading_underscore (s : String)
    (h : (normaliseFilenameForComparison s).data.head? ≠ some '_') :
    normaliseFilenameForComparison (normaliseFilenameForComparison s) =
      normaliseFilenameForComparison s := by
  by_cases hs : s = ""
  · subst hs
    rfl
  · have hfs : normaliseFilenameForComparison s = String.mk (normChars s.data) := by
      rw [normaliseFilenameForComparison, if_neg hs]
    rw [hfs] at h ⊢
    by_cases hout : String.mk (normChars s.data) = ""
    · rw [hout]
      rfl
    · rw [normaliseFilenameForComparison, if_neg hout]
      exact congrArg String.mk
        (normChars_fixpoint (fun c hc => mem_normChars_isAllowedOutputChar hc)
          (noDU_normChars s.data) (head?_normChars_ne_dot s.data) h)

/-- Witness for the amended C3 at `"A b.PDF"` (normalises to `"a_b.pdf"`,
which does not begin with an underscore). -/
theorem normaliseFilename_idempotent_witness :
    (normaliseFilenameForComparison "A b.PDF").data.head? ≠ some '_' ∧
    normaliseFilenameForComparison (normaliseFilenameForComparison "A b.PDF") =
      normaliseFilenameForComparison "A b.PDF" :=
  ⟨by decide,
    normaliseFilename_idempotent_unless_leading_underscore "A b.PDF" (by decide)⟩

/-- C4: `normaliseFilenameForComparison` is case-insensitive: lowercasing
the input first does not change the result, and any two filenames that agree
up to letter case normalise to the same string. -/
theorem normaliseFilename_case_insensitive :
    (∀ s : String, normaliseFilenameForComparison s =
      normaliseFilenameForComparison (lowerStr s)) ∧
    (∀ s t : String, s.data.map Char.toLower = t.data.map Char.toLower →
      normaliseFilenameForComparison s = normaliseFilenameForComparison t) := by
  have main : ∀ s : String, normaliseFilenameForComparison s =
      normaliseFilenameForComparison (lowerStr s) := by
    intro s
    by_cases hs : s = ""
    · subst hs
      rfl
    · have hlow : lowerStr s ≠ "" := by
        rw [Ne, string_eq_empty_iff]
        simp only [lowerStr, List.map_eq_nil_iff]
        exact fun hdata => hs (string_eq_empty_iff.mpr hdata)
      rw [normaliseFilenameForComparison, if_neg hs,
        normaliseFilenameForComparison, if_neg hlow]
      exact congrArg String.mk (normChars_map_toLower s.data).symm
  refine ⟨main, fun s t h => ?_⟩
  have : lowerStr s = lowerStr t := congrArg String.mk h
  rw [main s, main t, this]

/-- Witness for C4 at two filenames differing only in case. -/
theorem normaliseFilename_case_insensitive_witness :
    ("AB.pdf" : String).data.map Char.toLower =
      ("ab.PDF" : String).data.map Char.toLower ∧
    normaliseFilenameForComparison "AB.pdf" = normaliseFilenameForComparison "ab.PDF" :=
  ⟨by decide, normaliseFilename_case_insensitive.2 "AB.pdf" "ab.PDF" (by decide)⟩

theorem round2_zero : round2 0 = 0 := by
  simp [round2]

/-- C1, counterexample: on the spec's example input
`{summary: {total_tests: 10, passed: 8}}` the entry's aggregate
`overall_summary` is `{total_tests: 10, passed: 0, failed: 10,
success_rate: 0}` — the code reads `passed_tests` (or
`overall_summary.passed`), never a top-level `passed`, so the example's
claimed `{10, 8, 2, 80}` does not hold. -/
theorem createAnalysisEntry_spec_example_fails :
    ((createAnalysisEntry specExampleInput emptyContext).map
      (fun e => e.overall_summary)) = some (some ⟨10, 0, 10, 0⟩) ∧
    ((createAnalysisEntry specExampleInput emptyContext).map
      (fun e => e.overall_summary)) ≠ some (some ⟨10, 8, 2, 80⟩) := by
  have h : ((createAnalysisEntry specExampleInput emptyContext).map
      (fun e => e.overall_summary)) = some (some ⟨10, 0, 10, 0⟩) := by
    simp [createAnalysisEntry, specExampleInput, emptyContext,
      extractSummariesFromResult, normaliseSummaryPayload, summaryHighlights,
      summaryMeasuredValues, summaryMeasurementOverall, summaryMeasurementAnalysis,
      summaryTotalTests, summaryPassedTests, summaryDerivedFailed,
      summaryFailedTests, summarySuccessRate, numField, getField, lookupField,
      jsTruthy, truthyO, nco, jsOrD, jsOrO, isObjectLike, jsLengthTruthy,
      normaliseStringList, normaliseFailureList, coerceNumber, jsNumber,
      strToNum, parseDigits, round2, aggregateOverallSummary,
      pickMeasuredValuesSnapshot, objectKeysCount, resolveEngineLabel,
      jsToString, lowerStr, round_eq]
    norm_num
  refine ⟨h, ?_⟩
  rw [h]
  intro hc
  simp only [Option.some.injEq, AggSummary.mk.injEq] at hc
  exact absurd hc.2.1 (by norm_num)

/-- C1, amended: with the key the code reads — input
`{summary: {total_tests: 10, passed_tests: 8}}` — `createAnalysisEntry`
(with any context) produces aggregate overall summary
`{total_tests: 10, passed: 8, failed: 2, success_rate: 80}`. -/
theorem createAnalysisEntry_spec_example_amended (context : Context) :
    ((createAnalysisEntry specExampleInputPassedTests context).map
      (fun e => e.overall_summary)) = some (some ⟨10, 8, 2, 80⟩) := by
  simp [createAnalysisEntry, specExampleInputPassedTests,
    extractSummariesFromResult, normaliseSummaryPayload, summaryHighlights,
    summaryMeasuredValues, summaryMeasurementOverall, summaryMeasurementAnalysis,
    summaryTotalTests, summaryPassedTests, summaryDerivedFailed,
    summaryFailedTests, summarySuccessRate, numField, getField, lookupField,
    jsTruthy, truthyO, nco, jsOrD, jsOrO, isObjectLike, jsLengthTruthy,
    normaliseStringList, normaliseFailureList, coerceNumber, jsNumber,
    strToNum, parseDigits, round2, aggregateOverallSummary,
    pickMeasuredValuesSnapshot, objectKeysCount, resolveEngineLabel,
    jsToString, lowerStr, round_eq]
  norm_num

/-- C2: for every non-error result with at least one summary surviving
normalisation, `createAnalysisEntry` returns an entry whose `summaries` is
the list of normalised summaries and whose aggregate `overall_summary` sums
`total_tests` and `passed` over them, with `success_rate =
round2(passed/total*100)` (for a zero total both the code's guard and the
formula give `0`). -/
theorem aggregateOverallSummary_cons (a : NormSummary) (as : List NormSummary) :
    aggregateOverallSummary (a :: as) = some
      { total_tests := ((a :: as).map (fun s => s.overall_summary.total_tests)).sum
        passed := ((a :: as).map (fun s => s.overall_summary.passed)).sum
        failed := ((a :: as).map (fun s => s.overall_summary.failed)).sum
        success_rate :=
          if ((a :: as).map (fun s => s.overall_summary.total_tests)).sum ≠ 0 then
            round2 (((a :: as).map (fun s => s.overall_summary.passed)).sum /
              ((a :: as).map (fun s => s.overall_summary.total_tests)).sum * 100)
          else 0 } := rfl

theorem createAnalysisEntry_aggregates (result : JsonVal) (context : Context)
    (herr : truthyO (getField result "error") = false)
    (hnonempty : 0 <
      ((extractSummariesFromResult result).filterMap normaliseSummaryPayload).length) :
    ∃ entry, createAnalysisEntry result context = some entry ∧
      entry.summaries =
        (extractSummariesFromResult result).filterMap normaliseSummaryPayload ∧
      ∃ agg, entry.overall_summary = some agg ∧
        agg.total_tests =
          (entry.summaries.map (fun s => s.overall_summary.total_tests)).sum ∧
        agg.passed =
          (entry.summaries.map (fun s => s.overall_summary.passed)).sum ∧
        agg.success_rate = round2 (agg.passed / agg.total_tests * 100) := by
  have hres : jsTruthy result = true := by
    cases hjt : jsTruthy result with
    | true => rfl
    | false =>
      rw [extractSummariesFromResult, hjt] at hnonempty
      simp at hnonempty
  obtain ⟨a, as, hlist⟩ : ∃ a as,
      (extractSummariesFromResult result).filterMap normaliseSummaryPayload =
        a :: as := by
    cases hl : (extractSummariesFromResult result).filterMap normaliseSummaryPayload with
    | nil => rw [hl] at hnonempty; simp at hnonempty
    | cons a as => exact ⟨a, as, rfl⟩
  rw [createAnalysisEntry, hres, herr, hlist]
  simp only [Bool.not_true, Bool.false_eq_true, if_false]
  refine ⟨_, rfl, rfl, ?_⟩
  refine ⟨_, aggregateOverallSummary_cons a as, rfl, rfl, ?_⟩
  show (if ((a :: as).map (fun s => s.overall_summary.total_tests)).sum ≠ 0 then
      round2 (((a :: as).map (fun s => s.overall_summary.passed)).sum /
        ((a :: as).map (fun s => s.overall_summary.total_tests)).sum * 100)
    else 0) = _
  by_cases htz : ((a :: as).map (fun s => s.overall_summary.total_tests)).sum = 0
  · rw [if_neg (by rw [htz]; exact fun hc => hc rfl)]
    show (0 : ℚ) = round2 (_ / _ * 100)
    rw [htz, div_zero, zero_mul, round2_zero]
  · rw [if_pos htz]

/-- Witness for C2 at a one-summary response. -/
theorem createAnalysisEntry_aggregates_witness :
    truthyO (getField sampleAnalysisResult "error") = false ∧
    0 < ((extractSummariesFromResult sampleAnalysisResult).filterMap
      normaliseSummaryPayload).length ∧
    (∃ entry, createAnalysisEntry sampleAnalysisResult emptyContext = some entry ∧
      entry.summaries =
        (extractSummariesFromResult sampleAnalysisResult).filterMap
          normaliseSummaryPayload ∧
      ∃ agg, entry.overall_summary = some agg ∧
        agg.total_tests =
          (entry.summaries.map (fun s => s.overall_summary.total_tests)).sum ∧
        agg.passed =
          (entry.summaries.map (fun s => s.overall_summary.passed)).sum ∧
        agg.success_rate = round2 (agg.passed / agg.total_tests * 100)) :=
  ⟨by decide, by decide,
    createAnalysisEntry_aggregates sampleAnalysisResult emptyContext
      (by decide) (by decide)⟩

/-- C9, counterexample: a summary with `total_tests: 0` but an explicit
numeric `success_rate: 50` normalises to `success_rate = 50`, not `0` — the
explicit field short-circuits the zero-total rule. -/
theorem successRate_explicit_overrides_zero_total :
    ((normaliseSummaryPayload zeroTotalExplicitRateSummary).map
      (fun ns => (ns.overall_summary.total_tests, ns.overall_summary.success_rate))) =
      some (0, 50) ∧ (50 : ℚ) ≠ 0 := by
  constructor
  · simp [normaliseSummaryPayload, zeroTotalExplicitRateSummary, summaryHighlights,
      summaryMeasuredValues, summaryMeasurementOverall, summaryMeasurementAnalysis,
      summaryTotalTests, summaryPassedTests, summaryDerivedFailed,
      summaryFailedTests, summarySuccessRate, numField, getField, lookupField,
      jsTruthy, truthyO, nco, jsOrD, jsOrO, isObjectLike, jsLengthTruthy,
      normaliseStringList, normaliseFailureList, coerceNumber, jsNumber,
      strToNum, parseDigits, round2, objectKeysCount, jsToString, lowerStr]
  · norm_num

/-- C9, amended: the success-rate computation is division-safe.  The
normalised `success_rate` is exactly `summarySuccessRate`; when neither the
summary nor its measurement overall carries an explicit numeric
`success_rate` and the coerced total is `0`, it is `0` (no division is
performed); and `aggregateOverallSummary` yields `success_rate = 0`
whenever the aggregated total is `0`. -/
theorem successRate_division_safe :
    (∀ summary ns, normaliseSummaryPayload summary = some ns →
      ns.overall_summary.success_rate = summarySuccessRate summary) ∧
    (∀ summary, numField summary "success_rate" = none →
      numField (summaryMeasurementOverall summary) "success_rate" = none →
      summaryTotalTests summary = 0 → summarySuccessRate summary = 0) ∧
    (∀ summaries agg, aggregateOverallSummary summaries = some agg →
      agg.total_tests = 0 → agg.success_rate = 0) := by
  refine ⟨?_, ?_, ?_⟩
  · intro summary ns h
    rw [normaliseSummaryPayload] at h
    by_cases hc : (!jsTruthy summary || !isObjectLike summary) = true
    · rw [if_pos hc] at h
      exact absurd h (by simp)
    · rw [if_neg hc] at h
      simp only [Option.some.injEq] at h
      rw [← h]
  · intro summary h1 h2 h3
    rw [summarySuccessRate, h1, h2, if_neg (by rw [h3]; exact fun hc => hc rfl)]
  · intro summaries agg h htot
    match summaries with
    | [] => exact absurd h (by rw [aggregateOverallSummary]; simp)
    | a :: as =>
      rw [aggregateOverallSummary_cons] at h
      simp only [Option.some.injEq] at h
      rw [← h] at htot ⊢
      show (if ((a :: as).map (fun s => s.overall_summary.total_tests)).sum ≠ 0
        then _ else 0) = 0
      rw [if_neg]
      intro hne
      exact hne htot

/-- Witness for the amended C9 at a summary with a zero total and no
explicit rate, and at the corresponding one-element aggregate. -/
theorem successRate_division_safe_witness :
    (normaliseSummaryPayload zeroTotalSummary = some
      { raw := zeroTotalSummary, highlights := .arr [], failures := []
        localized_summaries := .obj [], structured_sections := .obj []
        measured_values := .obj []
        overall_summary :=
          { base := .obj [], total_tests := 0, passed := 0, failed := 0
            success_rate := 0 } } ∧
     ({ base := .obj [], total_tests := 0, passed := 0, failed := 0
        success_rate := 0 } : OverallSummaryVal).success_rate =
       summarySuccessRate zeroTotalSummary) ∧
    (numField zeroTotalSummary "success_rate" = none ∧
     numField (summaryMeasurementOverall zeroTotalSummary) "success_rate" = none ∧
     summaryTotalTests zeroTotalSummary = 0 ∧
     summarySuccessRate zeroTotalSummary = 0) ∧
    (aggregateOverallSummary (normaliseSummaryPayload zeroTotalSummary).toList =
      some ⟨0, 0, 0, 0⟩ ∧ (⟨0, 0, 0, 0⟩ : AggSummary).success_rate = 0) := by
  have hnorm : normaliseSummaryPayload zeroTotalSummary = some
      { raw := zeroTotalSummary, highlights := .arr [], failures := []
        localized_summaries := .obj [], structured_sections := .obj []
        measured_values := .obj []
        overall_summary :=
          { base := .obj [], total_tests := 0, passed := 0, failed := 0
            success_rate := 0 } } := by
    simp [normaliseSummaryPayload, zeroTotalSummary, summaryHighlights,
      summaryMeasuredValues, summaryMeasurementOverall, summaryMeasurementAnalysis,
      summaryTotalTests, summaryPassedTests, summaryDerivedFailed,
      summaryFailedTests, summarySuccessRate, numField, getField, lookupField,
      jsTruthy, truthyO, nco, jsOrD, jsOrO, isObjectLike, jsLengthTruthy,
      normaliseStringList, normaliseFailureList, coerceNumber, jsNumber,
      strToNum, parseDigits, round2, objectKeysCount, jsToString, lowerStr]
  have hagg : aggregateOverallSummary (normaliseSummaryPayload zeroTotalSummary).toList =
      some ⟨0, 0, 0, 0⟩ := by
    rw [hnorm]
    simp [aggregateOverallSummary]
  exact ⟨⟨hnorm, successRate_division_safe.1 zeroTotalSummary _ hnorm⟩,
    ⟨by decide, by decide, by decide,
      successRate_division_safe.2.1 zeroTotalSummary (by decide) (by decide)
        (by decide)⟩,
    hagg, successRate_division_safe.2.2 _ ⟨0, 0, 0, 0⟩ hagg rfl⟩

/-- C5, counterexample: `analyzeReportsWithAI` appends files under the
multipart field name `files`, not `files[]`. -/
theorem analyzeFiles_field_name_not_bracketed :
    analyzeFilesFormData [some "a.pdf"] "chatgpt" =
      [⟨"files", .fileEntry "a.pdf"⟩, ⟨"engine", .textEntry "chatgpt"⟩] ∧
    "files[]" ∉ (analyzeFilesFormData [some "a.pdf"] "chatgpt").map
      (fun p => p.field) := by
  exact ⟨by decide, by decide⟩

/-- C5, amended: every file is appended, in order, under the field name
`files` (not `files[]`) together with an `engine` field, and the normalised
response's `summaries` is exactly the spec-side shape: the server's
`summaries` array when it is an array, a singleton wrapping a truthy
singular `summary` when present, and the empty array otherwise. -/
theorem analyzeReportsWithAI_request_and_normalization :
    (∀ (files : List (Option String)) (engine : String),
      (analyzeFilesFormData files engine).map (fun p => p.field) =
        List.replicate files.length "files" ++ ["engine"] ∧
      (analyzeFilesFormData files engine).filterMap
          (fun p => match p.value with
            | .fileEntry n => some n
            | .textEntry _ => none) =
        files.enum.map (fun p => analyzeFilesFileName p.1 p.2) ∧
      (⟨"engine", .textEntry engine⟩ : FormPart) ∈ analyzeFilesFormData files engine) ∧
    (∀ payload : JsonVal,
      (normalizeAnalyzeFilesResponse payload).summaries =
        specNormalizedSummaries payload) := by
  constructor
  · intro files engine
    refine ⟨?_, ?_, ?_⟩
    · rw [analyzeFilesFormData, List.map_append, List.map_map]
      congr 1
      have : ((fun p : FormPart => p.field) ∘ fun p : Nat × Option String =>
          ({ field := "files", value := .fileEntry (analyzeFilesFileName p.1 p.2) } :
            FormPart)) = fun _ => "files" := rfl
      rw [this, List.map_const', List.enum_length]
    · rw [analyzeFilesFormData, List.filterMap_append, List.filterMap_map]
      have h1 : (List.filterMap (fun p : FormPart => match p.value with
          | .fileEntry n => some n
          | .textEntry _ => none)
          [({ field := "engine", value := .textEntry engine } : FormPart)]) = [] := rfl
      rw [h1, List.append_nil]
      have h2 : ((fun p : FormPart => match p.value with
          | .fileEntry n => some n
          | .textEntry _ => none) ∘ fun p : Nat × Option String =>
          ({ field := "files", value := .fileEntry (analyzeFilesFileName p.1 p.2) } :
            FormPart)) = fun p => some (analyzeFilesFileName p.1 p.2) := rfl
      rw [h2]
      exact List.filterMap_eq_map _ ▸ rfl
    · rw [analyzeFilesFormData]
      exact List.mem_append_right _ (List.mem_singleton.mpr rfl)
  · intro payload
    by_cases hc : (!jsTruthy payload || !isObjectLike payload) = true
    · rw [normalizeAnalyzeFilesResponse, specNormalizedSummaries, if_pos hc,
        if_pos hc]
    · rw [normalizeAnalyzeFilesResponse, specNormalizedSummaries, if_neg hc,
        if_neg hc]

theorem bulkLoop_events (outcome : Nat → UploadOutcome) (total : Nat) :
    ∀ (files : List String) (i : Nat) (firstErr : String),
      (bulkLoop outcome total files i firstErr).1 =
        bulkTraceSpec outcome total files i := by
  intro files
  induction files with
  | nil => intro i firstErr; rfl
  | cons f rest ih =>
    intro i firstErr
    rw [bulkLoop, bulkTraceSpec]
    cases ho : outcome i with
    | ok =>
      simp only [UploadOutcome.isOk, ih]
    | err m =>
      simp only [UploadOutcome.isOk, ih]

theorem bulkLoop_counts (outcome : Nat → UploadOutcome) (total : Nat) :
    ∀ (files : List String) (i : Nat) (firstErr : String),
      (bulkLoop outcome total files i firstErr).2.1 +
        (bulkLoop outcome total files i firstErr).2.2.1 = files.length := by
  intro files
  induction files with
  | nil => intro i firstErr; rfl
  | cons f rest ih =>
    intro i firstErr
    rw [bulkLoop]
    cases ho : outcome i with
    | ok =>
      simp only [List.length_cons]
      rw [Nat.add_right_comm, ih]
    | err m =>
      simp only [List.length_cons]
      rw [← Nat.add_assoc, ih]

theorem bulkTraceSpec_starts (outcome : Nat → UploadOutcome) (total : Nat) :
    ∀ (files : List String) (i : Nat),
      (bulkTraceSpec outcome total files i).filterMap startFile = files := by
  intro files
  induction files with
  | nil => intro i; rfl
  | cons f rest ih =>
    intro i
    rw [bulkTraceSpec]
    simp only [List.filterMap_cons, startFile]
    rw [ih]

/-- C6: for every non-empty selection, `handleBulkUpload` uploads the files
strictly sequentially in list order (each upload's start is immediately
followed by its awaited finish, then the progress update, before the next
file starts), never aborts on a per-file failure (every selected file is
started), the counts sum to the number of selected files, and the single
summary banner reports both counts — a warning on partial failure. -/
theorem handleBulkUpload_sequential (files : List String)
    (outcome : Nat → UploadOutcome) (refreshOutcome : Option Bool)
    (h : files ≠ []) :
    (handleBulkUpload files outcome refreshOutcome).events =
      bulkTraceSpec outcome files.length files 0 ∧
    (handleBulkUpload files outcome refreshOutcome).events.filterMap startFile =
      files ∧
    (handleBulkUpload files outcome refreshOutcome).successCount +
      (handleBulkUpload files outcome refreshOutcome).failureCount =
        files.length ∧
    (handleBulkUpload files outcome refreshOutcome).summaryStatus =
      some (bulkSummaryStatus
        (handleBulkUpload files outcome refreshOutcome).successCount
        (handleBulkUpload files outcome refreshOutcome).failureCount
        (handleBulkUpload files outcome refreshOutcome).firstError) ∧
    ((handleBulkUpload files outcome refreshOutcome).failureCount > 0 →
      (handleBulkUpload files outcome refreshOutcome).successCount > 0 →
      bulkSummaryStatus
          (handleBulkUpload files outcome refreshOutcome).successCount
          (handleBulkUpload files outcome refreshOutcome).failureCount
          (handleBulkUpload files outcome refreshOutcome).firstError =
        { type := "warning"
          message :=
            toString (handleBulkUpload files outcome refreshOutcome).successCount ++
            " rapor yüklendi, " ++
            toString (handleBulkUpload files outcome refreshOutcome).failureCount ++
            " rapor yüklenemedi. İlk hata: " ++
            (handleBulkUpload files outcome refreshOutcome).firstError }) := by
  match files with
  | [] => exact absurd rfl h
  | f :: rest =>
    refine ⟨?_, ?_, ?_, rfl, ?_⟩
    · exact bulkLoop_events outcome (f :: rest).length (f :: rest) 0 ""
    · rw [show (handleBulkUpload (f :: rest) outcome refreshOutcome).events =
          bulkTraceSpec outcome (f :: rest).length (f :: rest) 0 from
        bulkLoop_events outcome (f :: rest).length (f :: rest) 0 ""]
      exact bulkTraceSpec_starts outcome (f :: rest).length (f :: rest) 0
    · exact bulkLoop_counts outcome (f :: rest).length (f :: rest) 0 ""
    · intro hf hs
      rw [bulkSummaryStatus, if_pos ⟨hf, hs⟩]

/-- Witness for C6: two files, the first upload resolving and the second
rejecting, with a successful refresh. -/
theorem handleBulkUpload_sequential_witness :
    witnessBulkFiles ≠ [] ∧
    ((handleBulkUpload witnessBulkFiles witnessBulkOutcome (some true)).events =
      bulkTraceSpec witnessBulkOutcome witnessBulkFiles.length witnessBulkFiles 0 ∧
    (handleBulkUpload witnessBulkFiles witnessBulkOutcome (some true)).events.filterMap
      startFile = witnessBulkFiles ∧
    (handleBulkUpload witnessBulkFiles witnessBulkOutcome (some true)).successCount +
      (handleBulkUpload witnessBulkFiles witnessBulkOutcome (some true)).failureCount =
        witnessBulkFiles.length ∧
    (handleBulkUpload witnessBulkFiles witnessBulkOutcome (some true)).summaryStatus =
      some (bulkSummaryStatus
        (handleBulkUpload witnessBulkFiles witnessBulkOutcome (some true)).successCount
        (handleBulkUpload witnessBulkFiles witnessBulkOutcome (some true)).failureCount
        (handleBulkUpload witnessBulkFiles witnessBulkOutcome (some true)).firstError) ∧
    ((handleBulkUpload witnessBulkFiles witnessBulkOutcome (some true)).failureCount > 0 →
      (handleBulkUpload witnessBulkFiles witnessBulkOutcome (some true)).successCount > 0 →
      bulkSummaryStatus
          (handleBulkUpload witnessBulkFiles witnessBulkOutcome (some true)).successCount
          (handleBulkUpload witnessBulkFiles witnessBulkOutcome (some true)).failureCount
          (handleBulkUpload witnessBulkFiles witnessBulkOutcome (some true)).firstError =
        { type := "warning"
          message :=
            toString (handleBulkUpload witnessBulkFiles witnessBulkOutcome
              (some true)).successCount ++
            " rapor yüklendi, " ++
            toString (handleBulkUpload witnessBulkFiles witnessBulkOutcome
              (some true)).failureCount ++
            " rapor yüklenemedi. İlk hata: " ++
            (handleBulkUpload witnessBulkFiles witnessBulkOutcome
              (some true)).firstError })) :=
  ⟨by decide,
    handleBulkUpload_sequential witnessBulkFiles witnessBulkOutcome (some true)
      (by decide)⟩

/-- C7, counterexample: `handleCompare` invoked with both `isProcessing` and
`isComparing` set and two reports selected still issues the comparison
request — the handler body never reads the flags; only the button's
`disabled` attribute does. -/
theorem handleCompare_ignores_processing_flags :
    (handleCompare true true [1, 2]).calls = [.compare [1, 2]] ∧
    (handleCompare true true [1, 2]).calls ≠ [] ∧
    (handleCompare true true [1, 2]).buttonDisabled = true := by
  exact ⟨by decide, by decide, by decide⟩

/-- C7, amended: the upload handler (`isBusy`), the board analyze handler
(`isProcessing`) and the archive analyze handler (`isArchiveProcessing`)
issue no network request while their processing flag is set; the compare
handler has no in-handler guard and is protected only by its button's
`disabled` attribute (`isProcessing || isComparing`). -/
theorem processing_flag_guards :
    (∀ (selectedFile : Option String) (existing : List String) (engine : String)
        (uploadOk : Bool),
      (handleSubmit selectedFile true existing engine uploadOk).calls = []) ∧
    (∀ (selectedIds : List Nat) (reports : List (Nat × String)) (engine : String),
      (handleAnalyze true selectedIds reports engine).calls = []) ∧
    (∀ (selectedArchiveIds : List Nat) (engine : String),
      (handleAnalyzeSelected true selectedArchiveIds engine).calls = []) ∧
    (∀ (isProcessing isComparing : Bool) (ids : List Nat),
      (handleCompare isProcessing isComparing ids).buttonDisabled =
        (isProcessing || isComparing)) := by
  refine ⟨?_, ?_, ?_, ?_⟩
  · intro selectedFile existing engine uploadOk
    cases selectedFile with
    | none => rfl
    | some file => rfl
  · intro selectedIds reports engine
    rfl
  · intro selectedArchiveIds engine
    rfl
  · intro isProcessing isComparing ids
    rw [handleCompare]
    split
    · rfl
    · split
      · rfl
      · rfl

/-- C8, counterexample: a `page_2_comparison` that carries an `error` field
holding the empty string (present but falsy) is rendered, not dropped: the
component checks the field's truthiness, not its presence. -/
theorem comparisonView_renders_on_falsy_error :
    (ComparisonDetailView falsyErrorComparison).isSome = true ∧
    ComparisonDetailView falsyErrorComparison ≠ none := by
  constructor
  · decide
  · intro h
    have : (ComparisonDetailView falsyErrorComparison).isSome = true := by decide
    rw [h] at this
    simp at this

/-- C8, amended: `ComparisonDetailView` renders nothing exactly when the
comparison payload is falsy, its `page_2_comparison` is absent or falsy, or
`page_2_comparison.error` is truthy; on those inputs it returns `null`
without reading any further field. -/
theorem comparisonView_null_iff (comparisonData : JsonVal) :
    ComparisonDetailView comparisonData = none ↔
      (jsTruthy comparisonData = false ∨
       truthyO (getField comparisonData "page_2_comparison") = false ∨
       truthyO (getField ((getField comparisonData "page_2_comparison").getD .null)
         "error") = true) := by
  rw [ComparisonDetailView]
  by_cases h1 : jsTruthy comparisonData
  · rw [if_neg (by rw [h1]; simp)]
    by_cases h2 : truthyO (getField comparisonData "page_2_comparison")
    · rw [if_neg (by rw [h2]; simp)]
      by_cases h3 : truthyO
          (getField ((getField comparisonData "page_2_comparison").getD .null) "error")
      · rw [if_pos h3]
        simp [h3]
      · rw [if_neg h3]
        simp only [Bool.not_eq_true] at h3
        simp [h1, h2, h3]
    · simp only [Bool.not_eq_true] at h2
      rw [if_pos (by rw [h2]; rfl)]
      simp [h2]
  · simp only [Bool.not_eq_true] at h1
    rw [if_pos (by rw [h1]; rfl)]
    simp [h1]
